import Mathlib

/-!
Verification of the zssh trust-on-first-use (TOFU) host-identity subsystem.

The Go sources under `zsshlib/backup` contain several draft host-key
callbacks built around the external `golang.org/x/crypto/ssh/knownhosts`
library.  The pure decision logic of those callbacks is embedded here as
Lean functions.  Trust-store entries, lookup classification and line
decoding live in the external library, so they are modelled from the
specification (each such definition carries a `Modelled from the spec:`
doc comment); everything else is translated directly from the Go source.

Conventions of the embedding:
* Go strings are Lean `String`s; byte slices are `List Nat`.
* Key blobs are carried as their base64 text tokens; standard base64 with
  padding is injective, so equality of tokens coincides with equality of
  the decoded key bytes.
* File-system effects are made explicit: loading the store yields a
  `LoadOutcome`, appending may fail (`appendFails`), and each callback
  returns a `CbResult` recording the verdict, the resulting store and
  whether an operator prompt was shown.
* The HMAC-SHA1 used by hashed host patterns is an opaque parameter
  `hmac : String -> String -> String` (base64 salt and host in, base64
  digest out); no claim in scope depends on its internals.
-/

/-- Go `strings.Split(s, sep)` for a one-character separator, on char
lists.  Always returns at least one (possibly empty) part. -/
def splitChar (sep : Char) : List Char → List (List Char)
  | [] => [[]]
  | c :: cs =>
    if c = sep then [] :: splitChar sep cs
    else
      match splitChar sep cs with
      | [] => [[c]]
      | r :: rs => (c :: r) :: rs

/-- Go `strings.Join(parts, ":")` on char lists. -/
def joinColon (ps : List (List Char)) : List Char :=
  (ps.intersperse [':']).flatten

/-- Whether `needle` occurs inside `hay`, i.e. Go `strings.Contains`. -/
def listHasSub (hay needle : List Char) : Bool :=
  (List.range (hay.length + 1)).any (fun i => needle.isPrefixOf (hay.drop i))

/-- Go `strings.Contains` on strings. -/
def strContains (hay needle : String) : Bool :=
  listHasSub hay.data needle.data

/-- ASCII lower-casing on character codes (`'A'..'Z'` shifted to
`'a'..'z'`), used for the case-insensitive host-pattern match. -/
def lowerCode (n : Nat) : Nat :=
  if 65 ≤ n ∧ n ≤ 90 then n + 32 else n

/-- The case-folded code sequence of a string. -/
def foldKey (s : String) : List Nat :=
  s.data.map (fun c => lowerCode c.toNat)

/-- Case-insensitive string equality (Go host patterns are matched
case-insensitively). -/
def eqIgnoreCase (a b : String) : Bool :=
  foldKey a == foldKey b

/-- One host pattern of a known_hosts line: either a literal pattern or a
salted-hash descriptor.  Salt and digest are carried as their base64 text
(base64 is injective, so text equality is byte equality). -/
inductive HostPattern
  | plain (pat : String)
  | hashed (salt64 digest64 : String)
deriving DecidableEq

/-- One line of the trust store: host pattern, key-algorithm name and the
base64 key blob. -/
structure TrustEntry where
  pattern : HostPattern
  keyType : String
  keyBlob : String
deriving DecidableEq

/-- Modelled from the spec: `MatchesHost` of the EntryCodec, which lives
in the external x/crypto knownhosts library.  Plaintext patterns match
the canonical host case-insensitively; hashed patterns match when the
digest recomputed from the entry's salt equals the stored digest.  The
HMAC-SHA1 is the opaque parameter `hmac`. -/
def MatchesHost (hmac : String → String → String) (p : HostPattern) (host : String) : Bool :=
  match p with
  | .plain pat => eqIgnoreCase pat host
  | .hashed salt64 digest64 => hmac salt64 host == digest64

/-- Classification of a trust-store lookup. -/
inductive LookupResult
  | NotFound
  | Found (keyBlob : String)
  | FoundDifferentKey (existing : TrustEntry)
deriving DecidableEq

/-- The filter used by `Lookup`: entries whose pattern matches the host
and whose key type equals the presented one. -/
def lookupMatches (hmac : String → String → String) (host keyType : String)
    (e : TrustEntry) : Bool :=
  MatchesHost hmac e.pattern host && (e.keyType == keyType)

/-- Modelled from the spec: `TrustStore.Lookup`, implemented by the
external x/crypto knownhosts library.  Scans the entries whose pattern
matches the host and whose key type equals the presented type: `Found`
when one carries the presented key bytes, otherwise `FoundDifferentKey`
with the first differing entry, otherwise `NotFound`. -/
def Lookup (hmac : String → String → String) (store : List TrustEntry)
    (host keyType keyBlob : String) : LookupResult :=
  let ms := store.filter (lookupMatches hmac host keyType)
  if ms.any (fun e => e.keyBlob == keyBlob) then .Found keyBlob
  else
    match ms with
    | [] => .NotFound
    | e :: _ => .FoundDifferentKey e

/-- Go `strings.Fields`-style tokenisation on spaces, dropping empty
tokens. -/
def fields (s : String) : List String :=
  ((splitChar ' ' s.data).filter (fun l => !l.isEmpty)).map String.mk

/-- Whether a pattern token carries the salted-hash marker `|1|`. -/
def hasHashMarker (pat : String) : Bool :=
  match pat.data with
  | '|' :: '1' :: '|' :: _ => true
  | _ => false

/-- Modelled from the spec: `EntryCodec.Decode`, implemented by the
external x/crypto knownhosts library.  Recognises the `|1|` salted-hash
marker and splits it into base64 salt and digest; otherwise the leading
token is a plaintext pattern of which only the first comma-separated
alias is used.  Malformed lines yield `none`. -/
def Decode (line : String) : Option TrustEntry :=
  match fields line with
  | pat :: keyType :: keyBlob :: _ =>
    if hasHashMarker pat then
      match splitChar '|' pat.data with
      | [[], ['1'], salt64, digest64] =>
        some ⟨.hashed (String.mk salt64) (String.mk digest64), keyType, keyBlob⟩
      | _ => none
    else
      some ⟨.plain (String.mk ((splitChar ',' pat.data).headD [])), keyType, keyBlob⟩
  | _ => none

/-- Modelled from the spec: `TrustStore.Load` — decode every line,
dropping (with a warning) the lines that fail to decode. -/
def Load (lines : List String) : List TrustEntry :=
  lines.filterMap Decode

/-- Modelled from the spec: `knownhosts.Normalize` of the external
library with the default SSH port — the spec's CanonicalHostIdentity is
the host itself when the port is the default (matching is
case-insensitive, so the library's lower-casing is observationally
absorbed by `MatchesHost`). -/
def knownhostsNormalize (host : String) : String := host

/-- Modelled from the spec: `knownhosts.Normalize` on a `host:port`
address — `host` for the default port 22, `[host]:port` otherwise. -/
def normalizeAddr (host : String) (port : Nat) : String :=
  if port = 22 then host else "[" ++ host ++ "]:" ++ toString port

/-- Translated from `zitiEdgeConnAdapter.String` (ssh.go.back:474-482):
split the original address on `':'`, keep the last two segments joined
by `':'`, and delete every `']'`.  Go's `parts[len(parts)-2:]` panics
with a slice-bounds error when the string holds no colon (a single
segment), rendered here as `none`. -/
def zitiEdgeConnAdapterString (orig : String) : Option String :=
  let parts := splitChar ':' orig.data
  if parts.length < 2 then none
  else some (String.mk ((joinColon (parts.drop (parts.length - 2))).filter (fun c => !(c == ']'))))

/-- Outcome of reading the known_hosts file from disk. -/
inductive LoadOutcome
  | ok (entries : List TrustEntry)
  | missing
  | ioError
deriving DecidableEq

/-- Verdict of one host-key verification call. -/
inductive Verdict
  | ok
  | keyMismatch (want : TrustEntry)
  | trustStoreUnavailable
  | keyUnknownReturned
  | exited
  | panicked
  | noCallback
deriving DecidableEq

/-- Result of one host-key verification call: the verdict, the resulting
trust store, and whether an operator prompt was shown. -/
structure CbResult where
  verdict : Verdict
  store : List TrustEntry
  prompted : Bool
deriving DecidableEq

/-- Translated from `initializeKnownHosts1653` (ssh.go.back:959-980):
return the loaded store; on a non-missing load error fail; on a missing
file create it and load again (`retry` is the outcome of that second
load). -/
def initializeKnownHosts1653 (first retry : LoadOutcome) : Option (List TrustEntry) :=
  match first with
  | .ok s => some s
  | .ioError => none
  | .missing =>
    match retry with
    | .ok s => some s
    | _ => none

/-- Translated from `addHostKey1653` (ssh.go.back:983-1001): append one
plaintext line `Normalize(hostname) keyType blob` to the store. -/
def addHostKey1653Store (store : List TrustEntry) (hostname keyType keyBlob : String) :
    List TrustEntry :=
  store ++ [⟨.plain (knownhostsNormalize hostname), keyType, keyBlob⟩]

/-- Translated from `hostKeyCallback1653` (ssh.go.back:1004-1028): when
the store cannot be initialised the function returns a nil callback
(`noCallback`); otherwise the callback accepts a known key, returns the
mismatch error (`KeyError` with non-empty `Want`) untouched, and appends
the key via `addHostKey1653` when it is unknown — an append that fails
surfaces its I/O error (`trustStoreUnavailable`). -/
def runHostKeyCallback1653 (first retry : LoadOutcome) (appendFails : Bool)
    (hmac : String → String → String) (hostname keyType keyBlob : String) : CbResult :=
  match initializeKnownHosts1653 first retry with
  | none => ⟨.noCallback, [], false⟩
  | some store =>
    match Lookup hmac store hostname keyType keyBlob with
    | .Found _ => ⟨.ok, store, false⟩
    | .FoundDifferentKey e => ⟨.keyMismatch e, store, false⟩
    | .NotFound =>
      if appendFails then ⟨.trustStoreUnavailable, store, false⟩
      else ⟨.ok, addHostKey1653Store store hostname keyType keyBlob, false⟩

/-- Translated from `hostKeyCallback_1113` (ssh.go.back:794-840): when
the known_hosts file cannot be loaded — missing or any other error — a
warning is printed and an empty callback that returns nil is
substituted, so the closure sees no error and accepts (`ok` with no
store).  With a loaded store any `KeyError` (mismatch or unknown) is
returned as-is, so the append branch below it is unreachable for
unknown hosts. -/
def runHostKeyCallback_1113 (load : LoadOutcome)
    (hmac : String → String → String) (hostname keyType keyBlob : String) : CbResult :=
  match load with
  | .missing => ⟨.ok, [], false⟩
  | .ioError => ⟨.ok, [], false⟩
  | .ok store =>
    match Lookup hmac store hostname keyType keyBlob with
    | .Found _ => ⟨.ok, store, false⟩
    | .FoundDifferentKey e => ⟨.keyMismatch e, store, false⟩
    | .NotFound => ⟨.keyUnknownReturned, store, false⟩

/-- Whether the operator's answer line starts with `y` or `Y` — Go's
`strings.ToLower(answer)[:1] == "y"` (the answer read by `ReadString`
always ends in the newline delimiter, hence is non-empty). -/
def answerStartsWithY (answer : String) : Bool :=
  match answer.data with
  | c :: _ => lowerCode c.toNat == 121
  | [] => false

/-- Translated from `trustedHostKeyCallback` (ssh.go.back:491-542): a
load error is returned; a known key is accepted; a mismatch (`KeyError`
with non-empty `Want`) is returned; an unknown key triggers the
interactive prompt.  On a `y`/`Y` answer the key is appended via
`addKnownHost_1106` for the ziti-adapter form of the remote address (a
hashed entry built from `salt64` and the opaque `hmac`) — but the
original "key is unknown" error is then still returned
(`keyUnknownReturned`), because `err` is never cleared.  Any other
answer calls `os.Exit(1)` (`exited`). -/
def trustedHostKeyCallbackRun (load : LoadOutcome) (hmac : String → String → String)
    (salt64 : String) (hostname remoteStr keyType keyBlob answer : String) : CbResult :=
  match load with
  | .missing => ⟨.trustStoreUnavailable, [], false⟩
  | .ioError => ⟨.trustStoreUnavailable, [], false⟩
  | .ok store =>
    match Lookup hmac store hostname keyType keyBlob with
    | .Found _ => ⟨.ok, store, false⟩
    | .FoundDifferentKey e => ⟨.keyMismatch e, store, false⟩
    | .NotFound =>
      if answerStartsWithY answer then
        match zitiEdgeConnAdapterString remoteStr with
        | none => ⟨.panicked, store, true⟩
        | some adapterHost =>
          ⟨.keyUnknownReturned,
            store ++ [⟨.hashed salt64 (hmac salt64 adapterHost), keyType, keyBlob⟩], true⟩
      else ⟨.exited, store, true⟩

/-- Translated from `addKnownHostEntry1730` (ssh-addons.go.not:691-733),
at the level of raw file lines: when any existing line contains the
base64 key text the file is left untouched, otherwise one line
`hashedPattern keyType key` is appended. -/
def addKnownHostEntry1730 (lines : List String) (hashedPattern keyType keyStr : String) :
    List String :=
  if lines.any (fun l => strContains l keyStr) then lines
  else lines ++ [hashedPattern ++ " " ++ keyType ++ " " ++ keyStr]

/-- Translated from `AddHashedKnownHost` (ssh.go.back:656-687): the salt
it hashes with is the fixed byte string `[]byte("random_salt_value")`,
not a freshly generated random value. -/
def AddHashedKnownHost_salt : List Nat :=
  "random_salt_value".data.map Char.toNat

/-- Translated from `GenerateRandomSalt` (ssh.go.back:690-697): the
length of the salt it asks the CSPRNG for. -/
def GenerateRandomSalt_length : Nat := 20

/-- Translated from `ConvertToHashedKnownHost` (ssh.go.back:707-723):
format the entry `|1|salt64|digest64 keyType keyValue` where the digest
is `HashHostname` (HMAC-SHA1, opaque here) of the hostname under a
freshly generated salt. -/
def ConvertToHashedKnownHost (hmac : String → String → String)
    (salt64 hostname keyType keyValue : String) : String :=
  "|1|" ++ salt64 ++ "|" ++ hmac salt64 hostname ++ " " ++ keyType ++ " " ++ keyValue

/-- Translated from the temporary callback inside `addSSHHostKey1708`
(ssh.go.back:1064-1068): it records the presented key and returns nil,
i.e. accepts every presented key unconditionally. -/
def addSSHHostKey1708Callback (_hostname _remoteStr _keyType _keyBlob : String) : Option Verdict :=
  none

/-- Translated from the append tail of `addSSHHostKey1708`
(ssh.go.back:1089-1101): whatever key the dialled endpoint presented is
appended as `Normalize(host:port) keyType blob`, with no lookup,
duplicate check or prompt. -/
def addSSHHostKey1708Store (store : List TrustEntry) (host : String) (port : Nat)
    (keyType keyBlob : String) : List TrustEntry :=
  store ++ [⟨.plain (normalizeAddr host port), keyType, keyBlob⟩]

/-- The observable actions of `EstablishClient`, in order. -/
inductive EstablishStep
  | addSvcServerHostKey (host : String) (port : Nat)
  | ensureKnownHostsStep
  | authStep
  | dialServiceStep
  | sshHandshakeStep (target : String)
deriving DecidableEq

/-- Translated from `EstablishClient` (ssh.go.back:373-412): its very
first statement is `addSSHHostKey1708(knownHostsFile(),
"ubuntu@zsshSvcServer", 22)` (whose error is discarded), before the
known_hosts bootstrap, authentication, the service dial and the SSH
handshake for the requested target. -/
def EstablishClientSteps (target : String) : List EstablishStep :=
  [ .addSvcServerHostKey "ubuntu@zsshSvcServer" 22,
    .ensureKnownHostsStep,
    .authStep,
    .dialServiceStep,
    .sshHandshakeStep target ]

/-- A concrete stand-in for the opaque HMAC-SHA1, used only to
instantiate witnesses. -/
def dummyHmac (salt64 host : String) : String :=
  salt64 ++ ":" ++ host

example : eqIgnoreCase "Example.NET" "example.net" = true := by decide
example : splitChar ':' "p:h:22".data = [['p'], ['h'], ['2', '2']] := by decide
example : strContains "abc def" "c d" = true := by decide
example : Decode "example.net ssh-ed25519 QUJB" =
    some ⟨.plain "example.net", "ssh-ed25519", "QUJB"⟩ := by decide
example : Decode "|1|c2FsdA|ZGln ssh-ed25519 QUJB" =
    some ⟨.hashed "c2FsdA" "ZGln", "ssh-ed25519", "QUJB"⟩ := by decide
example : Decode "xx" = none := by decide
example : zitiEdgeConnAdapterString
    "ziti-edge-router connId=1, logical=ziti-sdk[router=tls:h:8442]" = some "h:8442" := by decide
example : zitiEdgeConnAdapterString "localhost" = none := by decide

theorem lookup_found_of_any (hmac : String → String → String) (store : List TrustEntry)
    (host keyType keyBlob : String)
    (hany : (store.filter (lookupMatches hmac host keyType)).any
      (fun e => e.keyBlob == keyBlob) = true) :
    Lookup hmac store host keyType keyBlob = .Found keyBlob := by
  simp only [Lookup]
  rw [hany]
  simp

theorem lookup_mismatch_of (hmac : String → String → String) (store : List TrustEntry)
    (host keyType keyBlob : String) (w : TrustEntry) (rest : List TrustEntry)
    (hms : store.filter (lookupMatches hmac host keyType) = w :: rest)
    (hany : ((w :: rest).any (fun e => e.keyBlob == keyBlob)) = false) :
    Lookup hmac store host keyType keyBlob = .FoundDifferentKey w := by
  simp only [Lookup]
  rw [hms, hany]
  simp

/-- C4: after `addHostKey1653` appends (H, K), a lookup for (H, K.type)
on the resulting store returns `Found` with exactly K's key bytes
(carried as the base64 token; base64 is injective on bytes), so the
callback of `hostKeyCallback1653` accepts the subsequent handshake. -/
theorem append_then_lookup_found (hmac : String → String → String)
    (retry : LoadOutcome) (appendFails : Bool)
    (store : List TrustEntry) (host keyType keyBlob : String) :
    Lookup hmac (addHostKey1653Store store host keyType keyBlob) host keyType keyBlob =
      .Found keyBlob ∧
    (runHostKeyCallback1653 (.ok (addHostKey1653Store store host keyType keyBlob))
      retry appendFails hmac host keyType keyBlob).verdict = .ok := by
  have hfound : Lookup hmac (addHostKey1653Store store host keyType keyBlob)
      host keyType keyBlob = .Found keyBlob := by
    apply lookup_found_of_any
    simp [addHostKey1653Store, List.filter_append, List.any_append,
      lookupMatches, MatchesHost, knownhostsNormalize, eqIgnoreCase]
  exact ⟨hfound, by simp [runHostKeyCallback1653, initializeKnownHosts1653, hfound]⟩

/-- C9: `EstablishClient`'s first action dials the hard-coded endpoint
`ubuntu@zsshSvcServer` on port 22, the temporary callback of
`addSSHHostKey1708` accepts every presented key, and whatever key that
endpoint presents is appended to the store with no lookup, duplicate
check or prompt. -/
theorem establishClient_backdoorAppend :
    (∀ target : String, (EstablishClientSteps target).head? =
      some (.addSvcServerHostKey "ubuntu@zsshSvcServer" 22)) ∧
    (∀ h r t b : String, addSSHHostKey1708Callback h r t b = none) ∧
    (∀ (store : List TrustEntry) (t b : String),
      addSSHHostKey1708Store store "ubuntu@zsshSvcServer" 22 t b =
        store ++ [⟨.plain "ubuntu@zsshSvcServer", t, b⟩]) := by
  refine ⟨fun _ => rfl, fun _ _ _ _ => rfl, fun store t b => rfl⟩

/-- C5: the salt `AddHashedKnownHost` feeds to the hostname hash is the
fixed 17-byte string `"random_salt_value"`, not a freshly generated
20-byte random salt (`GenerateRandomSalt` — used only by
`ConvertToHashedKnownHost` — asks for 20 bytes). -/
theorem addHashedKnownHost_salt_not20 :
    AddHashedKnownHost_salt.length = 17 ∧
    AddHashedKnownHost_salt.length ≠ GenerateRandomSalt_length := by
  decide

/-- C7: evaluation of `trustedHostKeyCallback` on an unknown host with
operator answer `"y\n"`: the key is appended to the store, yet the
verdict is the stale `knownhosts: key is unknown` error — not success —
because `err` is never cleared after the append; and a non-yes answer
exits the process without appending. -/
theorem trustedHostKeyCallback_yes_returnsError :
    trustedHostKeyCallbackRun (.ok []) dummyHmac "c2FsdA" "example.net"
        "tls:example.net:22" "ssh-ed25519" "QmxvYkE" "y\n" =
      ⟨.keyUnknownReturned,
        [⟨.hashed "c2FsdA" "c2FsdA:example.net:22", "ssh-ed25519", "QmxvYkE"⟩], true⟩ ∧
    trustedHostKeyCallbackRun (.ok []) dummyHmac "c2FsdA" "example.net"
        "tls:example.net:22" "ssh-ed25519" "QmxvYkE" "n\n" =
      ⟨.exited, [], true⟩ := by
  decide

/-- C2 counterexample: the draft callback `hostKeyCallback_1113`, given
an I/O error while loading the trust store, substitutes an empty
always-accepting callback — the verdict is `ok` (trusted), converting a
storage error into implicit trust. -/
theorem hostKeyCallback_1113_acceptsOnIoError :
    runHostKeyCallback_1113 .ioError dummyHmac "example.net" "ssh-ed25519" "QUJB" =
      ⟨.ok, [], false⟩ := by
  decide

/-- C3 counterexample: a remote-address descriptor with no colon (for
example the plain string `"localhost"`) makes `zitiEdgeConnAdapter.String`
slice `parts[len(parts)-2:]` with a negative bound — a runtime panic,
modelled as `none` — rather than falling back to the hostname hint
verbatim (which would require the result `some "localhost"`). -/
theorem zitiAdapterString_noColon_panics :
    zitiEdgeConnAdapterString "localhost" = none := by
  decide

/-- C6 counterexample: `addHostKey1653` performs no duplicate re-check:
appending a key that the store already holds for the same host leaves
two identical (host, key) entries. -/
theorem addHostKey1653_duplicateAppend :
    (addHostKey1653Store [⟨.plain "example.net", "ssh-ed25519", "QUJB"⟩]
        "example.net" "ssh-ed25519" "QUJB").countP
      (fun e => MatchesHost dummyHmac e.pattern "example.net" &&
        (e.keyType == "ssh-ed25519") && (e.keyBlob == "QUJB")) = 2 := by
  decide

/-- C1: when the loaded store holds an entry matching the canonical host
with the presented key type but different key bytes — stated as: the
lookup filter selects at least one entry (`w :: rest`) and every
selected entry differs from the presented bytes (a selected entry with
equal bytes would make the key trusted) — the callback of
`hostKeyCallback1653` returns the key-mismatch failure carrying the
previously-stored entry `w`, the store is unchanged, and no prompt is
shown. -/
theorem hostKeyCallback1653_keyMismatch
    (hmac : String → String → String) (retry : LoadOutcome) (appendFails : Bool)
    (store : List TrustEntry) (host keyType keyBlob : String)
    (w : TrustEntry) (rest : List TrustEntry)
    (hms : store.filter (lookupMatches hmac host keyType) = w :: rest)
    (hall : ∀ e' ∈ store, MatchesHost hmac e'.pattern host = true →
      e'.keyType = keyType → e'.keyBlob ≠ keyBlob) :
    runHostKeyCallback1653 (.ok store) retry appendFails hmac host keyType keyBlob =
      ⟨.keyMismatch w, store, false⟩ ∧
    w ∈ store ∧ MatchesHost hmac w.pattern host = true ∧
    w.keyType = keyType ∧ w.keyBlob ≠ keyBlob := by
  have hany : (store.filter (lookupMatches hmac host keyType)).any
      (fun x => x.keyBlob == keyBlob) = false := by
    rw [List.any_eq_false]
    intro x hx
    have hx' := List.mem_filter.mp hx
    have hxq : MatchesHost hmac x.pattern host = true ∧ x.keyType = keyType := by
      have := hx'.2
      simpa [lookupMatches] using this
    simpa using hall x hx'.1 hxq.1 hxq.2
  have hwmem : w ∈ store.filter (lookupMatches hmac host keyType) := by
    rw [hms]; exact List.mem_cons_self w rest
  have hw' := List.mem_filter.mp hwmem
  have hwq : MatchesHost hmac w.pattern host = true ∧ w.keyType = keyType := by
    have := hw'.2
    simpa [lookupMatches] using this
  have hlk : Lookup hmac store host keyType keyBlob = .FoundDifferentKey w :=
    lookup_mismatch_of hmac store host keyType keyBlob w rest hms (by rw [← hms]; exact hany)
  refine ⟨?_, hw'.1, hwq.1, hwq.2, hall w hw'.1 hwq.1 hwq.2⟩
  simp [runHostKeyCallback1653, initializeKnownHosts1653, hlk]

/-- C1 witness: a store holding `example.net ssh-ed25519 <blobA>` and a
handshake presenting `<blobB>` for the same host and type yields the
mismatch verdict carrying the stored entry, with the store untouched and
no prompt shown. -/
theorem hostKeyCallback1653_keyMismatch_witness :
    [(⟨.plain "example.net", "ssh-ed25519", "QmxvYkE"⟩ : TrustEntry)].filter
        (lookupMatches dummyHmac "example.net" "ssh-ed25519") =
      [⟨.plain "example.net", "ssh-ed25519", "QmxvYkE"⟩] ∧
    (runHostKeyCallback1653 (.ok [⟨.plain "example.net", "ssh-ed25519", "QmxvYkE"⟩])
        .missing false dummyHmac "example.net" "ssh-ed25519" "QmxvYkI" =
      ⟨.keyMismatch ⟨.plain "example.net", "ssh-ed25519", "QmxvYkE"⟩,
        [⟨.plain "example.net", "ssh-ed25519", "QmxvYkE"⟩], false⟩ ∧
    (⟨.plain "example.net", "ssh-ed25519", "QmxvYkE"⟩ : TrustEntry) ∈
      [(⟨.plain "example.net", "ssh-ed25519", "QmxvYkE"⟩ : TrustEntry)] ∧
    MatchesHost dummyHmac (HostPattern.plain "example.net") "example.net" = true ∧
    ("ssh-ed25519" : String) = "ssh-ed25519" ∧ ("QmxvYkE" : String) ≠ "QmxvYkI") :=
  ⟨by decide,
    hostKeyCallback1653_keyMismatch dummyHmac .missing false
      [⟨.plain "example.net", "ssh-ed25519", "QmxvYkE"⟩] "example.net" "ssh-ed25519" "QmxvYkI"
      ⟨.plain "example.net", "ssh-ed25519", "QmxvYkE"⟩ []
      (by decide) (by decide)⟩

/-- C2 amended: the deployed callback `hostKeyCallback1653` fails
closed — an I/O error loading the store leaves no callback (the
handshake cannot be verified), an append failure surfaces as a
trust-store error, and an accepting verdict is only ever reached with a
successfully initialised store.  (The draft callbacks `_1113`/`_1125`
violate the original claim; see the counterexample.) -/
theorem hostKeyCallback1653_failsClosed
    (first retry : LoadOutcome) (appendFails : Bool)
    (hmac : String → String → String) (store : List TrustEntry)
    (host keyType keyBlob : String) :
    (runHostKeyCallback1653 .ioError retry appendFails hmac host keyType keyBlob).verdict =
      .noCallback ∧
    (Lookup hmac store host keyType keyBlob = .NotFound →
      (runHostKeyCallback1653 (.ok store) retry true hmac host keyType keyBlob).verdict =
        .trustStoreUnavailable) ∧
    ((runHostKeyCallback1653 first retry appendFails hmac host keyType keyBlob).verdict = .ok →
      initializeKnownHosts1653 first retry ≠ none) := by
  refine ⟨rfl, ?_, ?_⟩
  · intro h
    simp [runHostKeyCallback1653, initializeKnownHosts1653, h]
  · intro h hnone
    rw [runHostKeyCallback1653, hnone] at h
    simp at h

/-- C2 witness: on an empty (freshly created) store, a lookup misses and
a failing append yields the trust-store-unavailable verdict. -/
theorem hostKeyCallback1653_failsClosed_witness :
    Lookup dummyHmac [] "example.net" "ssh-ed25519" "QUJB" = .NotFound ∧
    (runHostKeyCallback1653 (.ok []) .missing true dummyHmac
      "example.net" "ssh-ed25519" "QUJB").verdict = .trustStoreUnavailable :=
  ⟨by decide,
    (hostKeyCallback1653_failsClosed .ioError .missing true dummyHmac []
      "example.net" "ssh-ed25519" "QUJB").2.1 (by decide)⟩

theorem zitiAdapterString_eq_of_split (s : String) (xs : List (List Char)) (a b : List Char)
    (h : splitChar ':' s.data = xs ++ [a, b]) :
    zitiEdgeConnAdapterString s =
      some (String.mk ((a ++ ':' :: b).filter (fun c => !(c == ']')))) := by
  simp only [zitiEdgeConnAdapterString]
  rw [h]
  have hlen : (xs ++ [a, b]).length = xs.length + 2 := by simp
  have hcond : ¬ ((xs ++ [a, b]).length < 2) := by rw [hlen]; omega
  rw [if_neg hcond]
  have hdrop : (xs ++ [a, b]).drop ((xs ++ [a, b]).length - 2) = [a, b] := by
    rw [hlen]
    have h2 : xs.length + 2 - 2 = xs.length := by omega
    rw [h2]
    exact List.drop_left xs [a, b]
  rw [hdrop]
  have hjoin : joinColon [a, b] = a ++ ':' :: b := by
    simp [joinColon, List.intersperse]
  rw [hjoin]

/-- C3 amended: for every descriptor whose string form contains at least
one colon, `zitiEdgeConnAdapter.String` returns the last two
colon-delimited segments joined by a colon with every `']'` character
removed (`'['` is kept), so two descriptors sharing the same trailing
two segments canonicalise identically; a descriptor with no colon makes
the routine panic (`none`) — there is no hostnameHint fallback. -/
theorem zitiAdapterString_lastTwoSegments
    (s1 s2 : String) (xs ys : List (List Char)) (a b : List Char)
    (h1 : splitChar ':' s1.data = xs ++ [a, b])
    (h2 : splitChar ':' s2.data = ys ++ [a, b]) :
    zitiEdgeConnAdapterString s1 =
      some (String.mk ((a ++ ':' :: b).filter (fun c => !(c == ']')))) ∧
    zitiEdgeConnAdapterString s1 = zitiEdgeConnAdapterString s2 := by
  have e1 := zitiAdapterString_eq_of_split s1 xs a b h1
  have e2 := zitiAdapterString_eq_of_split s2 ys a b h2
  exact ⟨e1, e1.trans e2.symm⟩

/-- C3 witness: two concrete descriptors differing only in a
connection-scoped prefix but ending in the same `h:22` segments
canonicalise to the same identity. -/
theorem zitiAdapterString_lastTwoSegments_witness :
    splitChar ':' "p:h:22".data = [['p']] ++ [['h'], ['2', '2']] ∧
    splitChar ':' "q:r:h:22".data = [['q'], ['r']] ++ [['h'], ['2', '2']] ∧
    (zitiEdgeConnAdapterString "p:h:22" =
      some (String.mk ((['h'] ++ ':' :: ['2', '2']).filter (fun c => !(c == ']')))) ∧
     zitiEdgeConnAdapterString "p:h:22" = zitiEdgeConnAdapterString "q:r:h:22") :=
  ⟨by decide, by decide,
    zitiAdapterString_lastTwoSegments "p:h:22" "q:r:h:22" [['p']] [['q'], ['r']]
      ['h'] ['2', '2'] (by decide) (by decide)⟩

/-- C6 amended: `addKnownHostEntry1730` re-checks the file before
writing — when any line already contains the encoded key it appends
nothing — while `addHostKey1653` appends unconditionally (see the
counterexample), producing a duplicate line; duplicates stay benign: a
lookup after appending the same (host, key) twice still returns `Found`,
never a mismatch. -/
theorem append_dedup_and_benign :
    (∀ (lines : List String) (hashedPattern keyType keyStr : String),
      (lines.any (fun l => strContains l keyStr)) = true →
      addKnownHostEntry1730 lines hashedPattern keyType keyStr = lines) ∧
    (∀ (hmac : String → String → String) (store : List TrustEntry)
      (host keyType keyBlob : String),
      Lookup hmac (addHostKey1653Store (addHostKey1653Store store host keyType keyBlob)
        host keyType keyBlob) host keyType keyBlob = .Found keyBlob) := by
  constructor
  · intro lines hp kt ks h
    simp [addKnownHostEntry1730, h]
  · intro hmac store host kt kb
    apply lookup_found_of_any
    simp [addHostKey1653Store, List.filter_append, List.any_append,
      lookupMatches, MatchesHost, knownhostsNormalize, eqIgnoreCase]

/-- C6 witness: a file already holding the encoded key `S0VZMQ` is left
untouched by `addKnownHostEntry1730`. -/
theorem append_dedup_and_benign_witness :
    ((["|1|abc|def ssh-ed25519 S0VZMQ"].any (fun l => strContains l "S0VZMQ")) = true) ∧
    addKnownHostEntry1730 ["|1|abc|def ssh-ed25519 S0VZMQ"] "|1|xyz|uvw" "ssh-ed25519" "S0VZMQ" =
      ["|1|abc|def ssh-ed25519 S0VZMQ"] :=
  ⟨by decide,
    append_dedup_and_benign.1 ["|1|abc|def ssh-ed25519 S0VZMQ"] "|1|xyz|uvw"
      "ssh-ed25519" "S0VZMQ" (by decide)⟩

/-- C8: a line that fails to decode contributes nothing to the loaded
store, wherever it sits in the file, and every lookup resolves exactly
as it would without the malformed line. -/
theorem load_skips_malformed (pre post : List String) (bad : String)
    (hmac : String → String → String) (host keyType keyBlob : String)
    (hbad : Decode bad = none) :
    Load (pre ++ bad :: post) = Load (pre ++ post) ∧
    Lookup hmac (Load (pre ++ bad :: post)) host keyType keyBlob =
      Lookup hmac (Load (pre ++ post)) host keyType keyBlob := by
  have h1 : Load (pre ++ bad :: post) = Load (pre ++ post) := by
    simp only [Load, List.filterMap_append]
    rw [List.filterMap_cons_none hbad]
  exact ⟨h1, by rw [h1]⟩

/-- C8 witness: a store file with an unparsable first line and one valid
entry resolves lookups exactly as the file without the bad line, and in
particular still finds the valid entry's key. -/
theorem load_skips_malformed_witness :
    Decode "xx" = none ∧
    Lookup dummyHmac (Load ["xx", "example.net ssh-ed25519 QUJB"])
        "example.net" "ssh-ed25519" "QUJB" =
      Lookup dummyHmac (Load ["example.net ssh-ed25519 QUJB"])
        "example.net" "ssh-ed25519" "QUJB" ∧
    Lookup dummyHmac (Load ["xx", "example.net ssh-ed25519 QUJB"])
        "example.net" "ssh-ed25519" "QUJB" = .Found "QUJB" :=
  ⟨by decide,
    (load_skips_malformed [] ["example.net ssh-ed25519 QUJB"] "xx" dummyHmac
      "example.net" "ssh-ed25519" "QUJB" (by decide)).2,
    by decide⟩
